import Mathlib

/-!
Shallow embedding of the optimistic-concurrency vote ledger of
`api/vote.js`, `api/unvote.js` and `api/votes.js`.

JSON documents are modelled as Lean structures; JavaScript objects used as
string-keyed maps become association lists (object keys are unique, so
first-match lookup/update/delete is faithful).  The GitHub contents API is
modelled as one versioned cell per path: `sha` becomes a `Nat` version
counter, and `createOrUpdateFileContents` succeeds exactly when the supplied
sha equals the cell's current version (a mismatch is the 409 conflict).
External concurrent writers are modelled by an environment function that may
rewrite a cell between our store accesses; the sequential semantics is the
identity environment.  JavaScript truthiness of a stored timestamp
(`votes[blogId][ipHash]`, `entry.votes || 0`) is modelled explicitly.
-/

namespace BlogVote

/-- Rate limiting window, `RATE_LIMIT_WINDOW = 60 * 60 * 1000` (vote.js line 17). -/
def RATE_LIMIT_WINDOW : Nat := 60 * 60 * 1000

/-- Votes capacity per window, `MAX_VOTES_PER_WINDOW = 10` (vote.js line 18). -/
def MAX_VOTES_PER_WINDOW : Nat := 10

/-- Retry budget, `MAX_RETRIES = 3` (vote.js line 19, unvote.js line 17). -/
def MAX_RETRIES : Nat := 3

/-- Lookup in a JavaScript object modelled as an association list. -/
def getA {β : Type} : List (String × β) → String → Option β
  | [], _ => none
  | (k, v) :: rest, key => if k = key then some v else getA rest key

/-- Property assignment `obj[key] = val` on a JavaScript object: overwrite the
existing key in place, or append a fresh one. -/
def setA {β : Type} : List (String × β) → String → β → List (String × β)
  | [], key, val => [(key, val)]
  | (k, v) :: rest, key, val =>
    if k = key then (key, val) :: rest else (k, v) :: setA rest key val

/-- Property deletion `delete obj[key]` on a JavaScript object. -/
def removeA {β : Type} : List (String × β) → String → List (String × β)
  | [], _ => []
  | (k, v) :: rest, key => if k = key then rest else (k, v) :: removeA rest key

/-- JavaScript truthiness of a possibly-absent stored timestamp: absent and the
number `0` are falsy, every other number is truthy. -/
def truthyTs : Option Nat → Bool
  | none => false
  | some t => t != 0

/-- One element of `data.json`'s `entries` array: `id`, the optional `votes`
count, and all other fields of the entry (opaque, passed through unchanged). -/
structure Entry where
  id : String
  votes : Option Int
  extra : List (String × String)
deriving DecidableEq, Repr

/-- Content of `data.json` (the Aggregate document). -/
structure BlogData where
  entries : List Entry
deriving DecidableEq, Repr

/-- Content of `votes.json` (the Ledger document):
`{ votes: { [blogId]: { [ipHash]: timestamp } } }`. -/
structure VotesData where
  votes : List (String × List (String × Nat))
deriving DecidableEq, Repr

/-- `votesData.votes[blogId]?.[ipHash]` — ledger lookup. -/
def getVote (vd : VotesData) (blogId ipHash : String) : Option Nat :=
  match getA vd.votes blogId with
  | some inner => getA inner ipHash
  | none => none

/-- The ledger mutation of vote.js lines 136-149: ensure `votes[blogId]`
exists, then set `votes[blogId][ipHash] = ts`. -/
def setVote (vd : VotesData) (blogId ipHash : String) (ts : Nat) : VotesData :=
  let inner := (getA vd.votes blogId).getD []
  ⟨setA vd.votes blogId (setA inner ipHash ts)⟩

/-- The ledger mutation of unvote.js line 120: `delete votes[blogId][ipHash]`
(the `blogId` key itself stays, as in JavaScript). -/
def removeVote (vd : VotesData) (blogId ipHash : String) : VotesData :=
  match getA vd.votes blogId with
  | some inner => ⟨setA vd.votes blogId (removeA inner ipHash)⟩
  | none => vd

/-- `(blogEntry.votes || 0) + 1` (vote.js line 150). -/
def voteInc (v : Option Int) : Int := v.getD 0 + 1

/-- `Math.max(0, (blogEntry.votes || 0) - 1)` (unvote.js line 121). -/
def clampDec (v : Option Int) : Int := max 0 (v.getD 0 - 1)

/-- In-place mutation of the entry found by `entries.find(e => e.id === blogId)`:
only the first entry whose id matches has its `votes` field rewritten. -/
def updateFirstVotes : List Entry → String → (Option Int → Int) → List Entry
  | [], _, _ => []
  | e :: rest, blogId, f =>
    if e.id == blogId then { e with votes := some (f e.votes) } :: rest
    else e :: updateFirstVotes rest blogId f

/-- One versioned path of the GitHub contents store: content plus version
counter (the sha), or absent (404). -/
structure Cell (α : Type) where
  doc : Option (α × Nat)
deriving DecidableEq, Repr

/-- Outcome of one `createOrUpdateFileContents` call. -/
inductive PutOut (α : Type) where
  | ok (c : Cell α)
  | conflict
  | failed
deriving DecidableEq, Repr

/-- `createOrUpdateFileContents`: a write conditioned on the supplied sha.
It succeeds when the sha matches the current version (bumping the version),
409-conflicts on a mismatch, creates the file when neither a sha nor the file
exists, and fails with a non-409 error otherwise. -/
def putFile {α : Type} (c : Cell α) (content : α) (sha : Option Nat) : PutOut α :=
  match c.doc, sha with
  | some (_, v), some s => if s = v then .ok ⟨some (content, v + 1)⟩ else .conflict
  | some _, none => .failed
  | none, none => .ok ⟨some (content, 0)⟩
  | none, some _ => .failed

/-- `getGitHubFile` (vote.js lines 56-76): `{ content, sha }`, both null on 404. -/
def getGitHubFile {α : Type} (c : Cell α) : Option α × Option Nat :=
  (c.doc.map Prod.fst, c.doc.map Prod.snd)

/-- Store-level errors distinguished by the code: a 409 conflict versus any
other error status. -/
inductive StoreErr where
  | conflict
  | other
deriving DecidableEq, Repr

/-- Result of `updateGitHubFile`: the error (none on success), the cell as the
call leaves it, and the number of write attempts issued against the store. -/
structure WOut (α : Type) where
  err : Option StoreErr
  cell : Cell α
  writes : Nat
deriving DecidableEq, Repr

/-- Environment hook for external concurrent writers: how the cell may change
between this writer's store accesses, indexed by the retry count at which the
window occurs.  `fun _ c => c` is the interference-free sequential semantics. -/
def Env (α : Type) : Type := Nat → Cell α → Cell α

/-- The interference-free environment. -/
def idEnv {α : Type} : Env α := fun _ c => c

/-- Recursion core of `updateGitHubFile`, structurally recursive on
`budget = MAX_RETRIES - retryCount` (so `budget > 0` is exactly the source's
`retryCount < MAX_RETRIES` guard): attempt the conditional write; on a 409
conflict with retries left, re-read the file to obtain a fresh sha and retry
the SAME content with the fresh sha and `retryCount + 1`; otherwise rethrow. -/
def updateGitHubFileGo {α : Type} (env : Env α) (content : α) :
    Nat → Cell α → Option Nat → Nat → WOut α
  | 0, cell0, sha, retryCount =>
    let cell := env retryCount cell0
    match putFile cell content sha with
    | .ok c' => ⟨none, c', 1⟩
    | .failed => ⟨some .other, cell, 1⟩
    | .conflict => ⟨some .conflict, cell, 1⟩
  | b + 1, cell0, sha, retryCount =>
    let cell := env retryCount cell0
    match putFile cell content sha with
    | .ok c' => ⟨none, c', 1⟩
    | .failed => ⟨some .other, cell, 1⟩
    | .conflict =>
      let fresh := getGitHubFile cell
      let r := updateGitHubFileGo env content b cell fresh.2 (retryCount + 1)
      ⟨r.err, r.cell, r.writes + 1⟩

/-- `updateGitHubFile` (vote.js lines 79-107, unvote.js lines 55-79). -/
def updateGitHubFile {α : Type} (env : Env α) (cell0 : Cell α) (content : α)
    (sha : Option Nat) (retryCount : Nat) : WOut α :=
  updateGitHubFileGo env content (MAX_RETRIES - retryCount) cell0 sha retryCount

/-- The two documents of the backend store. -/
structure Store where
  dataCell : Cell BlogData
  votesCell : Cell VotesData
deriving DecidableEq, Repr

/-- Result of `processVote` as distinguished by its callers: the success
object, the `alreadyVoted` business rejection, and the thrown errors. -/
inductive VoteRes where
  | success (newVoteCount : Int)
  | alreadyVoted
  | dataNotFound
  | blogNotFound
  | conflictFail
  | storeFail
  | retriesExhausted
deriving DecidableEq, Repr

/-- A run of the vote coordinator: its result, the final store, the outer-loop
backoff delays taken (milliseconds), and the total store write attempts. -/
structure RunOut where
  res : VoteRes
  store : Store
  delays : List Nat
  writes : Nat
deriving DecidableEq, Repr

/-- The `while (attempt < MAX_RETRIES)` loop of `processVote` (vote.js lines
111-191): read both files fresh, validate, mutate, write ledger then
aggregate via `updateGitHubFile`; in the catch block increment `attempt` and,
when the error is a 409 and attempts remain, back off `1000 * attempt`
milliseconds and continue, otherwise rethrow. -/
def processVoteLoop (envV : Env VotesData) (envD : Env BlogData)
    (blogId ipHash : String) (now : Nat) : Store → Nat → Nat → RunOut
  | store, _, 0 => ⟨.retriesExhausted, store, [], 0⟩
  | store, attempt, b + 1 =>
    let dataFile := getGitHubFile store.dataCell
    let votesFile := getGitHubFile store.votesCell
    match dataFile.1 with
    | none => ⟨.dataNotFound, store, [], 0⟩
    | some blogData =>
      let votesData := votesFile.1.getD ⟨[]⟩
      match blogData.entries.find? (fun e => e.id == blogId) with
      | none => ⟨.blogNotFound, store, [], 0⟩
      | some blogEntry =>
        if truthyTs (getVote votesData blogId ipHash) then
          ⟨.alreadyVoted, store, [], 0⟩
        else
          let votesData' := setVote votesData blogId ipHash now
          let blogData' : BlogData := ⟨updateFirstVotes blogData.entries blogId voteInc⟩
          let wv := updateGitHubFile envV store.votesCell votesData' votesFile.2 0
          let store1 : Store := { store with votesCell := wv.cell }
          match wv.err with
          | some e =>
            if e = .conflict ∧ attempt + 1 < MAX_RETRIES then
              let r := processVoteLoop envV envD blogId ipHash now store1 (attempt + 1) b
              ⟨r.res, r.store, 1000 * (attempt + 1) :: r.delays, wv.writes + r.writes⟩
            else
              ⟨if e = .conflict then .conflictFail else .storeFail, store1, [], wv.writes⟩
          | none =>
            let wd := updateGitHubFile envD store1.dataCell blogData' dataFile.2 0
            let store2 : Store := { store1 with dataCell := wd.cell }
            match wd.err with
            | some e =>
              if e = .conflict ∧ attempt + 1 < MAX_RETRIES then
                let r := processVoteLoop envV envD blogId ipHash now store2 (attempt + 1) b
                ⟨r.res, r.store, 1000 * (attempt + 1) :: r.delays,
                  wv.writes + wd.writes + r.writes⟩
              else
                ⟨if e = .conflict then .conflictFail else .storeFail, store2, [],
                  wv.writes + wd.writes⟩
            | none =>
              ⟨.success (voteInc blogEntry.votes), store2, [], wv.writes + wd.writes⟩

/-- `processVote` (vote.js line 110): run the attempt loop from `attempt = 0`
with the structural loop budget `MAX_RETRIES - 0` (so the loop's `b + 1`
pattern coincides with the source's `attempt < MAX_RETRIES` test throughout). -/
def processVote (envV : Env VotesData) (envD : Env BlogData)
    (blogId ipHash : String) (now : Nat) (store : Store) : RunOut :=
  processVoteLoop envV envD blogId ipHash now store 0 MAX_RETRIES

/-- Result of `processUnvote` as distinguished by its callers. -/
inductive UnvoteRes where
  | success (newVoteCount : Int)
  | notVoted
  | dataNotFound
  | votesNotFound
  | blogNotFound
  | conflictFail
  | storeFail
  | retriesExhausted
deriving DecidableEq, Repr

/-- A run of the unvote coordinator. -/
structure URunOut where
  res : UnvoteRes
  store : Store
  delays : List Nat
  writes : Nat
deriving DecidableEq, Repr

/-- The `while` loop of `processUnvote` (unvote.js lines 82-160).  Unlike the
vote path, a missing votes file throws `Votes file not found` (line 98), a
non-409 error that the catch block rethrows. -/
def processUnvoteLoop (envV : Env VotesData) (envD : Env BlogData)
    (blogId ipHash : String) : Store → Nat → Nat → URunOut
  | store, _, 0 => ⟨.retriesExhausted, store, [], 0⟩
  | store, attempt, b + 1 =>
    let dataFile := getGitHubFile store.dataCell
    let votesFile := getGitHubFile store.votesCell
    match dataFile.1 with
    | none => ⟨.dataNotFound, store, [], 0⟩
    | some blogData =>
      match votesFile.1 with
      | none => ⟨.votesNotFound, store, [], 0⟩
      | some votesData =>
        match blogData.entries.find? (fun e => e.id == blogId) with
        | none => ⟨.blogNotFound, store, [], 0⟩
        | some blogEntry =>
          if !truthyTs (getVote votesData blogId ipHash) then
            ⟨.notVoted, store, [], 0⟩
          else
            let votesData' := removeVote votesData blogId ipHash
            let blogData' : BlogData := ⟨updateFirstVotes blogData.entries blogId clampDec⟩
            let wv := updateGitHubFile envV store.votesCell votesData' votesFile.2 0
            let store1 : Store := { store with votesCell := wv.cell }
            match wv.err with
            | some e =>
              if e = .conflict ∧ attempt + 1 < MAX_RETRIES then
                let r := processUnvoteLoop envV envD blogId ipHash store1 (attempt + 1) b
                ⟨r.res, r.store, 1000 * (attempt + 1) :: r.delays, wv.writes + r.writes⟩
              else
                ⟨if e = .conflict then .conflictFail else .storeFail, store1, [], wv.writes⟩
            | none =>
              let wd := updateGitHubFile envD store1.dataCell blogData' dataFile.2 0
              let store2 : Store := { store1 with dataCell := wd.cell }
              match wd.err with
              | some e =>
                if e = .conflict ∧ attempt + 1 < MAX_RETRIES then
                  let r := processUnvoteLoop envV envD blogId ipHash store2 (attempt + 1) b
                  ⟨r.res, r.store, 1000 * (attempt + 1) :: r.delays,
                    wv.writes + wd.writes + r.writes⟩
                else
                  ⟨if e = .conflict then .conflictFail else .storeFail, store2, [],
                    wv.writes + wd.writes⟩
              | none =>
                ⟨.success (clampDec blogEntry.votes), store2, [], wv.writes + wd.writes⟩

/-- `processUnvote` (unvote.js line 82): run the attempt loop from `attempt = 0`
with the structural loop budget `MAX_RETRIES`. -/
def processUnvote (envV : Env VotesData) (envD : Env BlogData)
    (blogId ipHash : String) (store : Store) : URunOut :=
  processUnvoteLoop envV envD blogId ipHash store 0 MAX_RETRIES

/-- One body of the `processVote` loop whose two reads were taken from an
earlier store snapshot while the writes land on the current (live) store —
the situation of a second caller racing a first one: vote.js issues the reads
(lines 116-119) before the other caller's writes commit, then issues its own
writes (lines 153-167) after them. -/
def voteAttemptStale (snapshot live : Store) (blogId ipHash : String)
    (now : Nat) : VoteRes × Store × Nat :=
  let dataFile := getGitHubFile snapshot.dataCell
  let votesFile := getGitHubFile snapshot.votesCell
  match dataFile.1 with
  | none => (.dataNotFound, live, 0)
  | some blogData =>
    let votesData := votesFile.1.getD ⟨[]⟩
    match blogData.entries.find? (fun e => e.id == blogId) with
    | none => (.blogNotFound, live, 0)
    | some blogEntry =>
      if truthyTs (getVote votesData blogId ipHash) then
        (.alreadyVoted, live, 0)
      else
        let votesData' := setVote votesData blogId ipHash now
        let blogData' : BlogData := ⟨updateFirstVotes blogData.entries blogId voteInc⟩
        let wv := updateGitHubFile idEnv live.votesCell votesData' votesFile.2 0
        let live1 : Store := { live with votesCell := wv.cell }
        match wv.err with
        | some e => (if e = .conflict then .conflictFail else .storeFail, live1, wv.writes)
        | none =>
          let wd := updateGitHubFile idEnv live1.dataCell blogData' dataFile.2 0
          let live2 : Store := { live1 with dataCell := wd.cell }
          match wd.err with
          | some e =>
            (if e = .conflict then .conflictFail else .storeFail, live2,
              wv.writes + wd.writes)
          | none =>
            (.success (voteInc blogEntry.votes), live2, wv.writes + wd.writes)

/-- Per-identity rate limit window state (vote.js line 39). -/
structure RateEntry where
  count : Nat
  windowStart : Nat
deriving DecidableEq, Repr

/-- The in-memory `rateLimitMap`. -/
abbrev RLState := List (String × RateEntry)

/-- `checkRateLimit` (vote.js lines 37-53): fixed-window counting.  Reset the
window when `now - windowStart > RATE_LIMIT_WINDOW`; reject without mutation
when the count has reached `MAX_VOTES_PER_WINDOW`; otherwise increment and
allow. -/
def checkRateLimit (m : RLState) (ipHash : String) (now : Nat) : Bool × RLState :=
  let userLimits := (getA m ipHash).getD ⟨0, now⟩
  let userLimits := if now - userLimits.windowStart > RATE_LIMIT_WINDOW then
      ({ count := 0, windowStart := now } : RateEntry)
    else userLimits
  if userLimits.count ≥ MAX_VOTES_PER_WINDOW then
    (false, m)
  else
    (true, setA m ipHash { count := userLimits.count + 1, windowStart := userLimits.windowStart })

/-- Outcome of the vote HTTP handler (vote.js lines 194-245), restricted to the
POST paths that reach the body. -/
inductive HandlerRes where
  | badRequest
  | rateLimited (retryAfter : Nat)
  | voteResult (r : VoteRes)
deriving DecidableEq, Repr

/-- The vote handler pipeline (vote.js lines 208-236): require `blogId`, check
the rate limit, then run `processVote`; a rate-limit rejection happens before
any store access, and the rate-limit state is never touched afterwards. -/
def voteHandler (m : RLState) (store : Store) (blogId ipHash : String)
    (now : Nat) : HandlerRes × RLState × Store :=
  if blogId = "" then
    (.badRequest, m, store)
  else
    let rl := checkRateLimit m ipHash now
    if rl.1 then
      let r := processVote idEnv idEnv blogId ipHash now store
      (.voteResult r.res, rl.2, r.store)
    else
      (.rateLimited (RATE_LIMIT_WINDOW / 1000), rl.2, store)

/-- One element of the votes.js response array. -/
structure VoteStatusOut where
  id : String
  votes : Int
  userVoted : Bool
deriving DecidableEq, Repr

/-- The read-only votes query (votes.js lines 61-89): `none` when the data
file is missing (500), otherwise one output per entry with
`votes: entry.votes || 0` and `userVoted: votes[entry.id]?.[ipHash] ? true : false`,
a missing votes file read as `{}`. -/
def listVotes (blogData : Option BlogData) (votesData : Option VotesData)
    (ipHash : String) : Option (List VoteStatusOut) :=
  match blogData with
  | none => none
  | some bd =>
    let votes := (votesData.map VotesData.votes).getD []
    some (bd.entries.map fun entry =>
      { id := entry.id, votes := entry.votes.getD 0,
        userVoted := truthyTs (getVote ⟨votes⟩ entry.id ipHash) })

/-- The votes handler over the store (votes.js lines 69-89): pure reads, the
store is returned untouched. -/
def votesHandler (store : Store) (ipHash : String) :
    Option (List VoteStatusOut) × Store :=
  (listVotes (getGitHubFile store.dataCell).1 (getGitHubFile store.votesCell).1 ipHash,
    store)

/-- Iterated `allow` calls: `rlIter ip now k m` is the rate-limit map after `k`
further `checkRateLimit` calls for `ip` at time `now`. -/
def rlIter (ip : String) (now : Nat) : Nat → RLState → RLState
  | 0, m => m
  | k + 1, m => (checkRateLimit (rlIter ip now k m) ip now).2

/-- Well-formedness of a stored ledger: every `castAt` timestamp is positive
(epoch-milliseconds timestamps written by `Date.now()` always are). -/
abbrev TsPos (vd : VotesData) : Prop := ∀ p ∈ vd.votes, ∀ q ∈ p.2, 0 < q.2

/-- Effective windowed count of an identity in the rate-limit map: the stored
count, or zero when the identity is fresh or its window has expired. -/
def effCount (m : RLState) (ip : String) (now : Nat) : Nat :=
  if now - ((getA m ip).getD ⟨0, now⟩).windowStart > RATE_LIMIT_WINDOW then 0
  else ((getA m ip).getD ⟨0, now⟩).count

/-- Initial store of the two-writer race: one item with three votes and an
empty ledger, both documents at version 0. -/
def raceStore : Store :=
  ⟨⟨some (⟨[⟨"a1", some 3, []⟩]⟩, 0)⟩, ⟨some (⟨[]⟩, 0)⟩⟩

/-- Writer A's castVote for identity h1, run to completion first. -/
def raceA : RunOut := processVote idEnv idEnv "a1" "h1" 100 raceStore

/-- Writer B's castVote attempt for identity h2: its two reads were served
from `raceStore` before A's writes committed, and its writes run against the
store as A left it (so both conditional writes conflict and go through the
version-refresh sub-retry of `updateGitHubFile`). -/
def raceB : VoteRes × Store × Nat := voteAttemptStale raceStore raceA.store "a1" "h2" 200

/-- An interfering writer that lands a fresh ledger version in each retry
window of a single `updateGitHubFile` call (retry counts 0 through 2). -/
def conflictEnv : Env VotesData := fun rc c =>
  if rc ≤ 2 then
    match c.doc with
    | some (_, n) => ⟨some (⟨[("a1", [("hx", 7)])]⟩, n + 1)⟩
    | none => ⟨some (⟨[("a1", [("hx", 7)])]⟩, 0)⟩
  else c

/-- Store for the conflict-budget counterexample. -/
def conflictStore : Store :=
  ⟨⟨some (⟨[⟨"a1", some 3, []⟩]⟩, 0)⟩, ⟨some (⟨[]⟩, 0)⟩⟩

end BlogVote

namespace BlogVote

/-! ### Helper lemmas about the association-list operations -/

theorem getA_setA_same {β : Type} (l : List (String × β)) (k : String) (v : β) :
    getA (setA l k v) k = some v := by
  induction l with
  | nil => simp [setA, getA]
  | cons p rest ih =>
    by_cases h : p.1 = k
    · simp [setA, getA, h]
    · simpa [setA, getA, h] using ih

theorem getA_mem {β : Type} {l : List (String × β)} {k : String} {v : β}
    (h : getA l k = some v) : (k, v) ∈ l := by
  induction l with
  | nil => simp [getA] at h
  | cons p rest ih =>
    obtain ⟨k', v'⟩ := p
    by_cases hk : k' = k
    · subst hk
      simp [getA] at h
      subst h
      exact List.mem_cons_self _ _
    · simp [getA, hk] at h
      exact List.mem_cons_of_mem _ (ih h)

theorem getVote_setVote (vd : VotesData) (blogId ipHash : String) (ts : Nat) :
    getVote (setVote vd blogId ipHash ts) blogId ipHash = some ts := by
  simp [getVote, setVote, getA_setA_same]

/-! ### Helper lemmas about the in-place aggregate mutation -/

theorem find?_updateFirstVotes (entries : List Entry) (blogId : String)
    (f : Option Int → Int) (e : Entry)
    (h : entries.find? (fun x => x.id == blogId) = some e) :
    (updateFirstVotes entries blogId f).find? (fun x => x.id == blogId) =
      some { e with votes := some (f e.votes) } := by
  induction entries with
  | nil => simp [List.find?] at h
  | cons a rest ih =>
    by_cases ha : a.id = blogId
    · simp [List.find?, ha] at h
      subst h
      simp [updateFirstVotes, ha, List.find?]
    · have hb : (a.id == blogId) = false := by simp [ha]
      simp only [List.find?, hb] at h
      simp only [updateFirstVotes, hb, Bool.false_eq_true, if_false, List.find?]
      exact ih h

end BlogVote

namespace BlogVote

/-! ### Characterizations of single store writes -/

theorem putFile_match {α : Type} (d : α) (v : Nat) (content : α) :
    putFile ⟨some (d, v)⟩ content (some v) = .ok ⟨some (content, v + 1)⟩ := by
  simp [putFile]

theorem putFile_create {α : Type} (content : α) :
    putFile (⟨none⟩ : Cell α) content none = .ok ⟨some (content, 0)⟩ := by
  simp [putFile]

theorem updateGitHubFileGo_ok {α : Type} {env : Env α} {content : α}
    {budget : Nat} {c : Cell α} {sha : Option Nat} {rc : Nat} {c' : Cell α}
    (h : putFile (env rc c) content sha = .ok c') :
    updateGitHubFileGo env content budget c sha rc = ⟨none, c', 1⟩ := by
  cases budget <;> simp [updateGitHubFileGo, h]

theorem updateGitHubFile_ok {α : Type} {env : Env α} {c : Cell α} {content : α}
    {sha : Option Nat} {rc : Nat} {c' : Cell α}
    (h : putFile (env rc c) content sha = .ok c') :
    updateGitHubFile env c content sha rc = ⟨none, c', 1⟩ := by
  simp [updateGitHubFile, updateGitHubFileGo_ok h]

theorem updateGitHubFile_idEnv_match {α : Type} (d : α) (v : Nat) (content : α)
    (rc : Nat) :
    updateGitHubFile idEnv ⟨some (d, v)⟩ content (some v) rc =
      ⟨none, ⟨some (content, v + 1)⟩, 1⟩ :=
  updateGitHubFile_ok (by simp [idEnv, putFile])

theorem updateGitHubFile_idEnv_create {α : Type} (content : α) (rc : Nat) :
    updateGitHubFile idEnv (⟨none⟩ : Cell α) content none rc =
      ⟨none, ⟨some (content, 0)⟩, 1⟩ :=
  updateGitHubFile_ok (by simp [idEnv, putFile])

/-! ### Characterizations of the coordinator paths (sequential semantics) -/

theorem processVoteLoop_success_char
    (blogId ipHash : String) (now : Nat) (bd : BlogData) (dv : Nat)
    (vdoc : Option (VotesData × Nat)) (e : Entry) (attempt b : Nat)
    (hfind : bd.entries.find? (fun x => x.id == blogId) = some e)
    (hnv : truthyTs (getVote ((vdoc.map Prod.fst).getD ⟨[]⟩) blogId ipHash) = false) :
    processVoteLoop idEnv idEnv blogId ipHash now ⟨⟨some (bd, dv)⟩, ⟨vdoc⟩⟩ attempt (b + 1) =
      ⟨.success (voteInc e.votes),
       ⟨⟨some (⟨updateFirstVotes bd.entries blogId voteInc⟩, dv + 1)⟩,
        ⟨some (setVote ((vdoc.map Prod.fst).getD ⟨[]⟩) blogId ipHash now,
               match vdoc with
               | some (_, vv) => vv + 1
               | none => 0)⟩⟩,
       [], 2⟩ := by
  cases vdoc with
  | none =>
    simp only [Option.map_none', Option.getD_none] at hnv
    simp [processVoteLoop, getGitHubFile, hfind, hnv,
      updateGitHubFile_idEnv_create, updateGitHubFile_idEnv_match]
  | some p =>
    obtain ⟨vd, vv⟩ := p
    simp only [Option.map_some', Option.getD_some] at hnv
    simp [processVoteLoop, getGitHubFile, hfind, hnv,
      updateGitHubFile_idEnv_match]

theorem processVoteLoop_already_char
    (blogId ipHash : String) (now : Nat) (bd : BlogData) (dv : Nat)
    (vdoc : Option (VotesData × Nat)) (e : Entry) (attempt b : Nat)
    (hfind : bd.entries.find? (fun x => x.id == blogId) = some e)
    (hv : truthyTs (getVote ((vdoc.map Prod.fst).getD ⟨[]⟩) blogId ipHash) = true) :
    processVoteLoop idEnv idEnv blogId ipHash now ⟨⟨some (bd, dv)⟩, ⟨vdoc⟩⟩ attempt (b + 1) =
      ⟨.alreadyVoted, ⟨⟨some (bd, dv)⟩, ⟨vdoc⟩⟩, [], 0⟩ := by
  cases vdoc with
  | none =>
    simp only [Option.map_none', Option.getD_none] at hv
    simp [processVoteLoop, getGitHubFile, hfind, hv]
  | some p =>
    obtain ⟨vd, vv⟩ := p
    simp only [Option.map_some', Option.getD_some] at hv
    simp [processVoteLoop, getGitHubFile, hfind, hv]

end BlogVote

namespace BlogVote

theorem processUnvoteLoop_success_char
    (blogId ipHash : String) (bd : BlogData) (dv : Nat)
    (vd : VotesData) (vv : Nat) (e : Entry) (attempt b : Nat)
    (hfind : bd.entries.find? (fun x => x.id == blogId) = some e)
    (hv : truthyTs (getVote vd blogId ipHash) = true) :
    processUnvoteLoop idEnv idEnv blogId ipHash
        ⟨⟨some (bd, dv)⟩, ⟨some (vd, vv)⟩⟩ attempt (b + 1) =
      ⟨.success (clampDec e.votes),
       ⟨⟨some (⟨updateFirstVotes bd.entries blogId clampDec⟩, dv + 1)⟩,
        ⟨some (removeVote vd blogId ipHash, vv + 1)⟩⟩,
       [], 2⟩ := by
  simp [processUnvoteLoop, getGitHubFile, hfind, hv,
    updateGitHubFile_idEnv_match]

theorem processUnvoteLoop_notVoted_char
    (blogId ipHash : String) (bd : BlogData) (dv : Nat)
    (vd : VotesData) (vv : Nat) (e : Entry) (attempt b : Nat)
    (hfind : bd.entries.find? (fun x => x.id == blogId) = some e)
    (hv : truthyTs (getVote vd blogId ipHash) = false) :
    processUnvoteLoop idEnv idEnv blogId ipHash
        ⟨⟨some (bd, dv)⟩, ⟨some (vd, vv)⟩⟩ attempt (b + 1) =
      ⟨.notVoted, ⟨⟨some (bd, dv)⟩, ⟨some (vd, vv)⟩⟩, [], 0⟩ := by
  simp [processUnvoteLoop, getGitHubFile, hfind, hv]

theorem processUnvoteLoop_votesMissing_char
    (envV : Env VotesData) (envD : Env BlogData)
    (blogId ipHash : String) (bd : BlogData) (dv : Nat) (attempt b : Nat) :
    processUnvoteLoop envV envD blogId ipHash
        ⟨⟨some (bd, dv)⟩, ⟨none⟩⟩ attempt (b + 1) =
      ⟨.votesNotFound, ⟨⟨some (bd, dv)⟩, ⟨none⟩⟩, [], 0⟩ := by
  simp [processUnvoteLoop, getGitHubFile]

end BlogVote

namespace BlogVote

theorem updateGitHubFileGo_writes_le {α : Type} (env : Env α) (content : α) :
    ∀ (budget : Nat) (c : Cell α) (sha : Option Nat) (rc : Nat),
      (updateGitHubFileGo env content budget c sha rc).writes ≤ budget + 1 := by
  intro budget
  induction budget with
  | zero =>
    intro c sha rc
    simp only [updateGitHubFileGo]
    split <;> simp
  | succ b ih =>
    intro c sha rc
    simp only [updateGitHubFileGo]
    split
    · simp
    · simp
    · have := ih (env rc c) (getGitHubFile (env rc c)).2 (rc + 1)
      simpa using Nat.add_le_add_right this 1

theorem updateGitHubFile_writes_le {α : Type} (env : Env α) (c : Cell α)
    (content : α) (sha : Option Nat) (rc : Nat) :
    (updateGitHubFile env c content sha rc).writes ≤ MAX_RETRIES - rc + 1 :=
  updateGitHubFileGo_writes_le env content (MAX_RETRIES - rc) c sha rc

theorem updateGitHubFile_writes_le' {α : Type} (env : Env α) (c : Cell α)
    (content : α) (sha : Option Nat) :
    (updateGitHubFile env c content sha 0).writes ≤ MAX_RETRIES + 1 := by
  simpa using updateGitHubFile_writes_le env c content sha 0

theorem processVoteLoop_writes_le (envV : Env VotesData) (envD : Env BlogData)
    (blogId ipHash : String) (now : Nat) :
    ∀ (budget : Nat) (store : Store) (attempt : Nat),
      (processVoteLoop envV envD blogId ipHash now store attempt budget).writes ≤
        budget * (2 * (MAX_RETRIES + 1)) := by
  intro budget
  induction budget with
  | zero => intro store attempt; simp [processVoteLoop]
  | succ b ih =>
    intro store attempt
    simp only [processVoteLoop]
    split
    · simp
    · split
      · simp
      · split
        · simp
        · split
          · split
            · exact le_trans
                (Nat.add_le_add (updateGitHubFile_writes_le' envV _ _ _) (ih _ _))
                (by simp only [MAX_RETRIES]; omega)
            · exact le_trans (updateGitHubFile_writes_le' envV _ _ _)
                (by simp only [MAX_RETRIES]; omega)
          · split
            · split
              · exact le_trans
                  (Nat.add_le_add
                    (Nat.add_le_add (updateGitHubFile_writes_le' envV _ _ _)
                      (updateGitHubFile_writes_le' envD _ _ _)) (ih _ _))
                  (by simp only [MAX_RETRIES]; omega)
              · exact le_trans
                  (Nat.add_le_add (updateGitHubFile_writes_le' envV _ _ _)
                    (updateGitHubFile_writes_le' envD _ _ _))
                  (by simp only [MAX_RETRIES]; omega)
            · exact le_trans
                (Nat.add_le_add (updateGitHubFile_writes_le' envV _ _ _)
                  (updateGitHubFile_writes_le' envD _ _ _))
                (by simp only [MAX_RETRIES]; omega)

end BlogVote
namespace BlogVote

theorem processVoteLoop_delays_shape (envV : Env VotesData) (envD : Env BlogData)
    (blogId ipHash : String) (now : Nat) :
    ∀ (budget : Nat) (store : Store) (attempt : Nat), MAX_RETRIES ≤ attempt + budget →
      ∃ k, k ≤ budget - 1 ∧
        (processVoteLoop envV envD blogId ipHash now store attempt budget).delays =
          (List.range k).map (fun n => 1000 * (attempt + 1 + n)) := by
  have hshift : ∀ a k, (List.range (k + 1)).map (fun n => 1000 * (a + 1 + n)) =
      1000 * (a + 1) :: (List.range k).map (fun n => 1000 * (a + 1 + 1 + n)) := by
    intro a k
    have hfun : ((fun n => 1000 * (a + 1 + n)) ∘ Nat.succ) =
        (fun n => 1000 * (a + 1 + 1 + n)) := by
      funext n
      simp only [Function.comp_apply]
      omega
    rw [List.range_succ_eq_map, List.map_cons, List.map_map, hfun]
  intro budget
  induction budget with
  | zero =>
    intro store attempt _
    exact ⟨0, by simp, by simp [processVoteLoop]⟩
  | succ b ih =>
    intro store attempt hinv
    simp only [processVoteLoop]
    split
    · exact ⟨0, by simp, by simp⟩
    · split
      · exact ⟨0, by simp, by simp⟩
      · split
        · exact ⟨0, by simp, by simp⟩
        · split
          · split
            · rename_i hcond
              have hlt := hcond.2
              obtain ⟨k, hk, hd⟩ := ih _ (attempt + 1) (by omega)
              refine ⟨k + 1, by omega, ?_⟩
              rw [hshift]
              show 1000 * (attempt + 1) :: _ = _
              rw [hd]
            · exact ⟨0, by simp, by simp⟩
          · split
            · split
              · rename_i hcond
                have hlt := hcond.2
                obtain ⟨k, hk, hd⟩ := ih _ (attempt + 1) (by omega)
                refine ⟨k + 1, by omega, ?_⟩
                rw [hshift]
                show 1000 * (attempt + 1) :: _ = _
                rw [hd]
              · exact ⟨0, by simp, by simp⟩
            · exact ⟨0, by simp, by simp⟩

end BlogVote
namespace BlogVote

theorem processUnvoteLoop_writes_le (envV : Env VotesData) (envD : Env BlogData)
    (blogId ipHash : String) :
    ∀ (budget : Nat) (store : Store) (attempt : Nat),
      (processUnvoteLoop envV envD blogId ipHash store attempt budget).writes ≤
        budget * (2 * (MAX_RETRIES + 1)) := by
  intro budget
  induction budget with
  | zero => intro store attempt; simp [processUnvoteLoop]
  | succ b ih =>
    intro store attempt
    simp only [processUnvoteLoop]
    split
    · simp
    · split
      · simp
      · split
        · simp
        · split
          · simp
          · split
            · split
              · exact le_trans
                  (Nat.add_le_add (updateGitHubFile_writes_le' envV _ _ _) (ih _ _))
                  (by simp only [MAX_RETRIES]; omega)
              · exact le_trans (updateGitHubFile_writes_le' envV _ _ _)
                  (by simp only [MAX_RETRIES]; omega)
            · split
              · split
                · exact le_trans
                    (Nat.add_le_add
                      (Nat.add_le_add (updateGitHubFile_writes_le' envV _ _ _)
                        (updateGitHubFile_writes_le' envD _ _ _)) (ih _ _))
                    (by simp only [MAX_RETRIES]; omega)
                · exact le_trans
                    (Nat.add_le_add (updateGitHubFile_writes_le' envV _ _ _)
                      (updateGitHubFile_writes_le' envD _ _ _))
                    (by simp only [MAX_RETRIES]; omega)
              · exact le_trans
                  (Nat.add_le_add (updateGitHubFile_writes_le' envV _ _ _)
                    (updateGitHubFile_writes_le' envD _ _ _))
                  (by simp only [MAX_RETRIES]; omega)

theorem processUnvoteLoop_delays_shape (envV : Env VotesData) (envD : Env BlogData)
    (blogId ipHash : String) :
    ∀ (budget : Nat) (store : Store) (attempt : Nat), MAX_RETRIES ≤ attempt + budget →
      ∃ k, k ≤ budget - 1 ∧
        (processUnvoteLoop envV envD blogId ipHash store attempt budget).delays =
          (List.range k).map (fun n => 1000 * (attempt + 1 + n)) := by
  have hshift : ∀ a k, (List.range (k + 1)).map (fun n => 1000 * (a + 1 + n)) =
      1000 * (a + 1) :: (List.range k).map (fun n => 1000 * (a + 1 + 1 + n)) := by
    intro a k
    have hfun : ((fun n => 1000 * (a + 1 + n)) ∘ Nat.succ) =
        (fun n => 1000 * (a + 1 + 1 + n)) := by
      funext n
      simp only [Function.comp_apply]
      omega
    rw [List.range_succ_eq_map, List.map_cons, List.map_map, hfun]
  intro budget
  induction budget with
  | zero =>
    intro store attempt _
    exact ⟨0, by simp, by simp [processUnvoteLoop]⟩
  | succ b ih =>
    intro store attempt hinv
    simp only [processUnvoteLoop]
    split
    · exact ⟨0, by simp, by simp⟩
    · split
      · exact ⟨0, by simp, by simp⟩
      · split
        · exact ⟨0, by simp, by simp⟩
        · split
          · exact ⟨0, by simp, by simp⟩
          · split
            · split
              · rename_i hcond
                have hlt := hcond.2
                obtain ⟨k, hk, hd⟩ := ih _ (attempt + 1) (by omega)
                refine ⟨k + 1, by omega, ?_⟩
                rw [hshift]
                show 1000 * (attempt + 1) :: _ = _
                rw [hd]
              · exact ⟨0, by simp, by simp⟩
            · split
              · split
                · rename_i hcond
                  have hlt := hcond.2
                  obtain ⟨k, hk, hd⟩ := ih _ (attempt + 1) (by omega)
                  refine ⟨k + 1, by omega, ?_⟩
                  rw [hshift]
                  show 1000 * (attempt + 1) :: _ = _
                  rw [hd]
                · exact ⟨0, by simp, by simp⟩
              · exact ⟨0, by simp, by simp⟩

end BlogVote

namespace BlogVote

/-! ### Rate limiter behavior -/

theorem checkRateLimit_false_no_mutation (m : RLState) (ip : String) (now : Nat)
    (h : (checkRateLimit m ip now).1 = false) :
    (checkRateLimit m ip now).2 = m := by
  by_cases hw : now - ((getA m ip).getD ⟨0, now⟩).windowStart > RATE_LIMIT_WINDOW
  · simp [checkRateLimit, hw, MAX_VOTES_PER_WINDOW] at h
  · by_cases hc : ((getA m ip).getD ⟨0, now⟩).count ≥ MAX_VOTES_PER_WINDOW
    · simp [checkRateLimit, hw, hc]
    · simp [checkRateLimit, hw, hc] at h

theorem checkRateLimit_reset {m : RLState} {ip : String} {now : Nat} {e : RateEntry}
    (hget : getA m ip = some e)
    (hw : now - e.windowStart > RATE_LIMIT_WINDOW) :
    checkRateLimit m ip now = (true, setA m ip ⟨1, now⟩) := by
  simp [checkRateLimit, hget, hw, MAX_VOTES_PER_WINDOW]

theorem checkRateLimit_full {m : RLState} {ip : String} {now : Nat} {e : RateEntry}
    (hget : getA m ip = some e)
    (hw : ¬ now - e.windowStart > RATE_LIMIT_WINDOW)
    (hc : e.count ≥ MAX_VOTES_PER_WINDOW) :
    checkRateLimit m ip now = (false, m) := by
  simp [checkRateLimit, hget, hw, hc]

theorem checkRateLimit_incr {m : RLState} {ip : String} {now : Nat} {e : RateEntry}
    (hget : getA m ip = some e)
    (hw : ¬ now - e.windowStart > RATE_LIMIT_WINDOW)
    (hc : e.count < MAX_VOTES_PER_WINDOW) :
    checkRateLimit m ip now = (true, setA m ip ⟨e.count + 1, e.windowStart⟩) := by
  simp [checkRateLimit, hget, hw, Nat.not_le_of_lt hc]

theorem checkRateLimit_fresh {m : RLState} {ip : String} {now : Nat}
    (hget : getA m ip = none) :
    checkRateLimit m ip now = (true, setA m ip ⟨1, now⟩) := by
  simp [checkRateLimit, hget, MAX_VOTES_PER_WINDOW]


theorem rlIter_empty (ip : String) (t : Nat) :
    ∀ k, k ≤ MAX_VOTES_PER_WINDOW → 1 ≤ k → rlIter ip t k [] = [(ip, ⟨k, t⟩)] := by
  intro k
  induction k with
  | zero => intro _ h; omega
  | succ k ih =>
    intro hk _
    rcases Nat.eq_zero_or_pos k with h0 | hpos
    · subst h0
      show (checkRateLimit (rlIter ip t 0 []) ip t).2 = _
      rw [show rlIter ip t 0 [] = [] from rfl,
        checkRateLimit_fresh (by simp [getA])]
      simp [setA]
    · have hrec := ih (by omega) hpos
      show (checkRateLimit (rlIter ip t k []) ip t).2 = _
      have hget : getA [(ip, (⟨k, t⟩ : RateEntry))] ip = some ⟨k, t⟩ := by simp [getA]
      have hw : ¬ t - (⟨k, t⟩ : RateEntry).windowStart > RATE_LIMIT_WINDOW := by
        show ¬ t - t > RATE_LIMIT_WINDOW
        omega
      have hc : (⟨k, t⟩ : RateEntry).count < MAX_VOTES_PER_WINDOW := by
        show k < MAX_VOTES_PER_WINDOW
        omega
      rw [hrec, checkRateLimit_incr hget hw hc]
      simp [setA]

/-! ### Frame properties of the aggregate mutation -/

theorem zip_self_countP_ne (l : List Entry) :
    ((l.zip l).countP (fun p => decide (p.2 ≠ p.1))) = 0 := by
  induction l with
  | nil => simp
  | cons e rest ih => simpa [List.countP_cons] using ih

theorem updateFirstVotes_forall₂ (entries : List Entry) (blogId : String)
    (f : Option Int → Int) :
    List.Forall₂ (fun e e' => e'.id = e.id ∧ e'.extra = e.extra ∧ (e.id = blogId ∨ e' = e))
      entries (updateFirstVotes entries blogId f) := by
  induction entries with
  | nil => simp [updateFirstVotes]
  | cons e rest ih =>
    by_cases h : e.id = blogId
    · have hb : (e.id == blogId) = true := by simp [h]
      simp only [updateFirstVotes, hb, if_true]
      exact List.Forall₂.cons ⟨rfl, rfl, Or.inl h⟩
        (List.forall₂_same.mpr (fun x _ => ⟨rfl, rfl, Or.inr rfl⟩))
    · have hb : (e.id == blogId) = false := by simp [h]
      simp only [updateFirstVotes, hb, Bool.false_eq_true, if_false]
      exact List.Forall₂.cons ⟨rfl, rfl, Or.inr rfl⟩ ih

theorem updateFirstVotes_countP (entries : List Entry) (blogId : String)
    (f : Option Int → Int) :
    ((entries.zip (updateFirstVotes entries blogId f)).countP
      (fun p => decide (p.2 ≠ p.1))) ≤ 1 := by
  induction entries with
  | nil => simp [updateFirstVotes]
  | cons e rest ih =>
    by_cases h : e.id = blogId
    · have hb : (e.id == blogId) = true := by simp [h]
      simp only [updateFirstVotes, hb, if_true, List.zip_cons_cons, List.countP_cons,
        zip_self_countP_ne]
      split <;> simp
    · have hb : (e.id == blogId) = false := by simp [h]
      simp only [updateFirstVotes, hb, Bool.false_eq_true, if_false, List.zip_cons_cons,
        List.countP_cons]
      simpa using ih

/-! ### Ledger positivity and truthiness -/


theorem truthyTs_getVote_isSome {vd : VotesData} (h : TsPos vd) (i k : String) :
    truthyTs (getVote vd i k) = (getVote vd i k).isSome := by
  unfold getVote
  cases hg : getA vd.votes i with
  | none => simp [truthyTs]
  | some inner =>
    cases hk : getA inner k with
    | none =>
      show truthyTs (getA inner k) = (getA inner k).isSome
      rw [hk]
      simp [truthyTs]
    | some t =>
      have hpos : 0 < t := h _ (getA_mem hg) _ (getA_mem hk)
      show truthyTs (getA inner k) = (getA inner k).isSome
      rw [hk]
      simpa [truthyTs] using Nat.pos_iff_ne_zero.mp hpos

end BlogVote

namespace BlogVote

/-- C1: for a store holding the item and not yet voted by this identity, a
successful castVote followed immediately by a second castVote with the same
item and identity returns AlreadyVoted on the second call; the rejected call
performs no writes and no retries (store, Ledger and Aggregate unchanged),
and the item's voteCount still equals the first call's result. -/
theorem castVote_repeat_alreadyVoted
    (blogId ipHash : String) (now : Nat) (bd : BlogData) (dv : Nat)
    (vdoc : Option (VotesData × Nat)) (e : Entry)
    (hfind : bd.entries.find? (fun x => x.id == blogId) = some e)
    (hnv : truthyTs (getVote ((vdoc.map Prod.fst).getD ⟨[]⟩) blogId ipHash) = false)
    (hnow : 0 < now) :
    ∃ n1 S1,
      processVote idEnv idEnv blogId ipHash now ⟨⟨some (bd, dv)⟩, ⟨vdoc⟩⟩ =
        ⟨.success n1, S1, [], 2⟩ ∧
      processVote idEnv idEnv blogId ipHash now S1 = ⟨.alreadyVoted, S1, [], 0⟩ ∧
      ∃ bd1, S1.dataCell.doc = some (bd1, dv + 1) ∧
        bd1.entries.find? (fun x => x.id == blogId) = some { e with votes := some n1 } := by
  have hMR : MAX_RETRIES = 2 + 1 := rfl
  have hfind2 := find?_updateFirstVotes bd.entries blogId voteInc e hfind
  cases vdoc with
  | none =>
    refine ⟨voteInc e.votes,
      ⟨⟨some (⟨updateFirstVotes bd.entries blogId voteInc⟩, dv + 1)⟩,
       ⟨some (setVote ⟨[]⟩ blogId ipHash now, 0)⟩⟩, ?_, ?_, ?_⟩
    · show processVoteLoop idEnv idEnv blogId ipHash now _ 0 MAX_RETRIES = _
      rw [hMR]
      exact processVoteLoop_success_char blogId ipHash now bd dv none e 0 2 hfind hnv
    · have hv2 : truthyTs (getVote (setVote ⟨[]⟩ blogId ipHash now) blogId ipHash) = true := by
        rw [getVote_setVote]
        simpa [truthyTs] using hnow.ne'
      show processVoteLoop idEnv idEnv blogId ipHash now _ 0 MAX_RETRIES = _
      rw [hMR]
      exact processVoteLoop_already_char blogId ipHash now
        ⟨updateFirstVotes bd.entries blogId voteInc⟩ (dv + 1)
        (some (setVote ⟨[]⟩ blogId ipHash now, 0)) _ 0 2 hfind2 (by simpa using hv2)
    · exact ⟨_, rfl, hfind2⟩
  | some p =>
    obtain ⟨vd, vv⟩ := p
    refine ⟨voteInc e.votes,
      ⟨⟨some (⟨updateFirstVotes bd.entries blogId voteInc⟩, dv + 1)⟩,
       ⟨some (setVote vd blogId ipHash now, vv + 1)⟩⟩, ?_, ?_, ?_⟩
    · show processVoteLoop idEnv idEnv blogId ipHash now _ 0 MAX_RETRIES = _
      rw [hMR]
      exact processVoteLoop_success_char blogId ipHash now bd dv (some (vd, vv)) e 0 2 hfind hnv
    · have hv2 : truthyTs (getVote (setVote vd blogId ipHash now) blogId ipHash) = true := by
        rw [getVote_setVote]
        simpa [truthyTs] using hnow.ne'
      show processVoteLoop idEnv idEnv blogId ipHash now _ 0 MAX_RETRIES = _
      rw [hMR]
      exact processVoteLoop_already_char blogId ipHash now
        ⟨updateFirstVotes bd.entries blogId voteInc⟩ (dv + 1)
        (some (setVote vd blogId ipHash now, vv + 1)) _ 0 2 hfind2 (by simpa using hv2)
    · exact ⟨_, rfl, hfind2⟩

/-- Witness for the idempotent-rejection theorem at the spec's example store. -/
theorem castVote_repeat_alreadyVoted_witness :
    ∃ n1 S1,
      processVote idEnv idEnv "a1" "h1" 100
          ⟨⟨some (⟨[⟨"a1", some 3, []⟩]⟩, 0)⟩, ⟨some (⟨[]⟩, 0)⟩⟩ =
        ⟨.success n1, S1, [], 2⟩ ∧
      processVote idEnv idEnv "a1" "h1" 100 S1 = ⟨.alreadyVoted, S1, [], 0⟩ ∧
      ∃ bd1, S1.dataCell.doc = some (bd1, 0 + 1) ∧
        bd1.entries.find? (fun x => x.id == "a1") =
          some { id := "a1", votes := some n1, extra := [] } :=
  castVote_repeat_alreadyVoted "a1" "h1" 100 ⟨[⟨"a1", some 3, []⟩]⟩ 0
    (some (⟨[]⟩, 0)) ⟨"a1", some 3, []⟩ (by decide) (by decide) (by decide)

/-- C7: a successful castVote on an item with prior count n records the ledger
entry with the cast timestamp, writes the item's count as n + 1, and returns
success with voteCount n + 1. -/
theorem castVote_success_effects
    (blogId ipHash : String) (now : Nat) (bd : BlogData) (dv : Nat)
    (vdoc : Option (VotesData × Nat)) (e : Entry) (n : Int)
    (hfind : bd.entries.find? (fun x => x.id == blogId) = some e)
    (hnv : truthyTs (getVote ((vdoc.map Prod.fst).getD ⟨[]⟩) blogId ipHash) = false)
    (hn : e.votes.getD 0 = n) :
    ∃ S1,
      processVote idEnv idEnv blogId ipHash now ⟨⟨some (bd, dv)⟩, ⟨vdoc⟩⟩ =
        ⟨.success (n + 1), S1, [], 2⟩ ∧
      (∃ bd1, S1.dataCell.doc = some (bd1, dv + 1) ∧
        bd1.entries.find? (fun x => x.id == blogId) =
          some { e with votes := some (n + 1) }) ∧
      (∃ vd1 vv1, S1.votesCell.doc = some (vd1, vv1) ∧
        getVote vd1 blogId ipHash = some now) := by
  subst hn
  have hMR : MAX_RETRIES = 2 + 1 := rfl
  have hfind2 := find?_updateFirstVotes bd.entries blogId voteInc e hfind
  cases vdoc with
  | none =>
    refine ⟨⟨⟨some (⟨updateFirstVotes bd.entries blogId voteInc⟩, dv + 1)⟩,
       ⟨some (setVote ⟨[]⟩ blogId ipHash now, 0)⟩⟩, ?_, ⟨_, rfl, hfind2⟩,
       ⟨_, 0, rfl, getVote_setVote _ _ _ _⟩⟩
    show processVoteLoop idEnv idEnv blogId ipHash now _ 0 MAX_RETRIES = _
    rw [hMR]
    exact processVoteLoop_success_char blogId ipHash now bd dv none e 0 2 hfind hnv
  | some p =>
    obtain ⟨vd, vv⟩ := p
    refine ⟨⟨⟨some (⟨updateFirstVotes bd.entries blogId voteInc⟩, dv + 1)⟩,
       ⟨some (setVote vd blogId ipHash now, vv + 1)⟩⟩, ?_, ⟨_, rfl, hfind2⟩,
       ⟨_, vv + 1, rfl, getVote_setVote _ _ _ _⟩⟩
    show processVoteLoop idEnv idEnv blogId ipHash now _ 0 MAX_RETRIES = _
    rw [hMR]
    exact processVoteLoop_success_char blogId ipHash now bd dv (some (vd, vv)) e 0 2 hfind hnv

/-- Witness for the castVote success theorem at the spec's example scenario:
Aggregate `{entries:[{id:"a1",votes:3}]}`, Ledger `{votes:{}}`, result 4. -/
theorem castVote_success_effects_witness :
    ∃ S1,
      processVote idEnv idEnv "a1" "h1" 100
          ⟨⟨some (⟨[⟨"a1", some 3, []⟩]⟩, 0)⟩, ⟨some (⟨[]⟩, 0)⟩⟩ =
        ⟨.success (3 + 1), S1, [], 2⟩ ∧
      (∃ bd1, S1.dataCell.doc = some (bd1, 0 + 1) ∧
        bd1.entries.find? (fun x => x.id == "a1") =
          some { id := "a1", votes := some (3 + 1), extra := [] }) ∧
      (∃ vd1 vv1, S1.votesCell.doc = some (vd1, vv1) ∧
        getVote vd1 "a1" "h1" = some 100) :=
  castVote_success_effects "a1" "h1" 100 ⟨[⟨"a1", some 3, []⟩]⟩ 0
    (some (⟨[]⟩, 0)) ⟨"a1", some 3, []⟩ 3 (by decide) (by decide) (by decide)

/-- C6: a retractVote that reaches the mutation step writes the item's count
as max(0, voteCount - 1) and returns it; the clamp is never negative and
floors at zero. -/
theorem retractVote_clamps_at_zero
    (blogId ipHash : String) (bd : BlogData) (dv : Nat) (vd : VotesData)
    (vv : Nat) (e : Entry)
    (hfind : bd.entries.find? (fun x => x.id == blogId) = some e)
    (hv : truthyTs (getVote vd blogId ipHash) = true) :
    (∃ S1,
      processUnvote idEnv idEnv blogId ipHash ⟨⟨some (bd, dv)⟩, ⟨some (vd, vv)⟩⟩ =
        ⟨.success (clampDec e.votes), S1, [], 2⟩ ∧
      ∃ bd1, S1.dataCell.doc = some (bd1, dv + 1) ∧
        bd1.entries.find? (fun x => x.id == blogId) =
          some { e with votes := some (clampDec e.votes) }) ∧
    0 ≤ clampDec e.votes ∧ (∀ v : Option Int, 0 ≤ clampDec v) ∧
    clampDec (some 0) = 0 := by
  have hMR : MAX_RETRIES = 2 + 1 := rfl
  refine ⟨⟨⟨⟨some (⟨updateFirstVotes bd.entries blogId clampDec⟩, dv + 1)⟩,
      ⟨some (removeVote vd blogId ipHash, vv + 1)⟩⟩, ?_,
      ⟨_, rfl, find?_updateFirstVotes bd.entries blogId clampDec e hfind⟩⟩,
    le_max_left 0 _, fun v => le_max_left 0 _, by simp [clampDec]⟩
  show processUnvoteLoop idEnv idEnv blogId ipHash _ 0 MAX_RETRIES = _
  rw [hMR]
  exact processUnvoteLoop_success_char blogId ipHash bd dv vd vv e 0 2 hfind hv

/-- Witness for the clamp theorem with a starting count of zero: the result
stays at zero. -/
theorem retractVote_clamps_at_zero_witness :
    (∃ S1,
      processUnvote idEnv idEnv "a1" "h1"
          ⟨⟨some (⟨[⟨"a1", some 0, []⟩]⟩, 0)⟩, ⟨some (⟨[("a1", [("h1", 5)])]⟩, 0)⟩⟩ =
        ⟨.success (clampDec (some 0)), S1, [], 2⟩ ∧
      ∃ bd1, S1.dataCell.doc = some (bd1, 0 + 1) ∧
        bd1.entries.find? (fun x => x.id == "a1") =
          some { id := "a1", votes := some (clampDec (some 0)), extra := [] }) ∧
    0 ≤ clampDec (some 0) ∧ (∀ v : Option Int, 0 ≤ clampDec v) ∧
    clampDec (some 0) = 0 :=
  retractVote_clamps_at_zero "a1" "h1" ⟨[⟨"a1", some 0, []⟩]⟩ 0
    ⟨[("a1", [("h1", 5)])]⟩ 0 ⟨"a1", some 0, []⟩ (by decide) (by decide)

/-- C4 (amended): a retractVote against a missing Ledger document fails with
the store-level `Votes file not found` error, leaving the store untouched
with no writes and no retries; this terminal outcome is not the NotVoted
business rejection. -/
theorem retractVote_missing_ledger_errors
    (envV : Env VotesData) (envD : Env BlogData)
    (blogId ipHash : String) (bd : BlogData) (dv : Nat) :
    processUnvote envV envD blogId ipHash ⟨⟨some (bd, dv)⟩, ⟨none⟩⟩ =
      ⟨.votesNotFound, ⟨⟨some (bd, dv)⟩, ⟨none⟩⟩, [], 0⟩ ∧
    UnvoteRes.votesNotFound ≠ UnvoteRes.notVoted := by
  constructor
  · show processUnvoteLoop envV envD blogId ipHash _ 0 MAX_RETRIES = _
    rw [show MAX_RETRIES = 2 + 1 from rfl]
    exact processUnvoteLoop_votesMissing_char envV envD blogId ipHash bd dv 0 2
  · decide

/-- Counterexample to C4 as stated: with the Aggregate holding item a1 and the
Ledger document absent, retractVote reports the missing-votes-file error, not
NotVoted. -/
theorem retractVote_missing_ledger_cex :
    (processUnvote idEnv idEnv "a1" "h1"
        ⟨⟨some (⟨[⟨"a1", some 3, []⟩]⟩, 0)⟩, ⟨none⟩⟩).res = .votesNotFound ∧
    (processUnvote idEnv idEnv "a1" "h1"
        ⟨⟨some (⟨[⟨"a1", some 3, []⟩]⟩, 0)⟩, ⟨none⟩⟩).res ≠ .notVoted := by
  decide

end BlogVote
namespace BlogVote




/-- C2 evaluated at the failing input: both concurrent castVote calls succeed
and both report voteCount 4, but the final Aggregate count is 4 — not the 5
the two increments require — and h1's ledger entry has been erased by B's
sub-retry, which rewrote stale content under a refreshed version token. -/
theorem concurrent_castVote_lost_update :
    raceA.res = .success 4 ∧
    raceB.1 = .success 4 ∧
    (raceB.2.1.dataCell.doc.map Prod.fst) = some ⟨[⟨"a1", some 4, []⟩]⟩ ∧
    (raceB.2.1.dataCell.doc.map Prod.fst) ≠ some ⟨[⟨"a1", some (3 + 2), []⟩]⟩ ∧
    (raceB.2.1.votesCell.doc.map Prod.fst) = some ⟨[("a1", [("h2", 200)])]⟩ ∧
    getVote ⟨[("a1", [("h2", 200)])]⟩ "a1" "h1" = none ∧
    getVote ⟨[("a1", [("h2", 200)])]⟩ "a1" "h2" = some 200 := by
  decide



/-- Counterexample to C3 as stated: a single castVote whose ledger write
conflicts three times issues 4 put attempts on that one document (plus one on
the aggregate, 5 in total) and still succeeds — the version-refresh
sub-retries have their own budget and do not share the outer loop's
MAX_RETRIES = 3 attempts. -/
theorem subretry_budget_not_shared_cex :
    (processVote conflictEnv idEnv "a1" "h1" 100 conflictStore).res = .success 4 ∧
    (processVote conflictEnv idEnv "a1" "h1" 100 conflictStore).writes = 5 ∧
    ¬ (processVote conflictEnv idEnv "a1" "h1" 100 conflictStore).writes ≤ MAX_RETRIES := by
  decide

theorem processVote_delays_shape (envV : Env VotesData) (envD : Env BlogData)
    (blogId ipHash : String) (now : Nat) (store : Store) :
    ∃ k, k ≤ MAX_RETRIES - 1 ∧
      (processVote envV envD blogId ipHash now store).delays =
        (List.range k).map (fun n => 1000 * (n + 1)) := by
  obtain ⟨k, hk, hd⟩ :=
    processVoteLoop_delays_shape envV envD blogId ipHash now MAX_RETRIES store 0 (by omega)
  refine ⟨k, hk, ?_⟩
  show (processVoteLoop envV envD blogId ipHash now store 0 MAX_RETRIES).delays = _
  rw [hd]
  have hfun : (fun n => 1000 * (0 + 1 + n)) = (fun n => 1000 * (n + 1)) := by
    funext n
    omega
  rw [hfun]

theorem processUnvote_delays_shape (envV : Env VotesData) (envD : Env BlogData)
    (blogId ipHash : String) (store : Store) :
    ∃ k, k ≤ MAX_RETRIES - 1 ∧
      (processUnvote envV envD blogId ipHash store).delays =
        (List.range k).map (fun n => 1000 * (n + 1)) := by
  obtain ⟨k, hk, hd⟩ :=
    processUnvoteLoop_delays_shape envV envD blogId ipHash MAX_RETRIES store 0 (by omega)
  refine ⟨k, hk, ?_⟩
  show (processUnvoteLoop envV envD blogId ipHash store 0 MAX_RETRIES).delays = _
  rw [hd]
  have hfun : (fun n => 1000 * (0 + 1 + n)) = (fun n => 1000 * (n + 1)) := by
    funext n
    omega
  rw [hfun]

/-- C3 (amended): each individual `updateGitHubFile` call has its own
conflict-retry budget of at most `MAX_RETRIES - retryCount + 1` put attempts,
independent of the outer loop; a whole cast-vote or retract-vote run issues at
most `MAX_RETRIES * 2 * (MAX_RETRIES + 1)` put attempts and its outer backoffs
are exactly 1000ms times the retry index, at most MAX_RETRIES - 1 of them —
so every run terminates within this bounded budget. -/
theorem retry_budget_bounds :
    (∀ (α : Type) (env : Env α) (c : Cell α) (content : α)
        (sha : Option Nat) (rc : Nat),
      (updateGitHubFile env c content sha rc).writes ≤ MAX_RETRIES - rc + 1) ∧
    (∀ (envV : Env VotesData) (envD : Env BlogData) (blogId ipHash : String)
        (now : Nat) (store : Store),
      (processVote envV envD blogId ipHash now store).writes ≤
        MAX_RETRIES * (2 * (MAX_RETRIES + 1)) ∧
      ∃ k, k ≤ MAX_RETRIES - 1 ∧
        (processVote envV envD blogId ipHash now store).delays =
          (List.range k).map (fun n => 1000 * (n + 1))) ∧
    (∀ (envV : Env VotesData) (envD : Env BlogData) (blogId ipHash : String)
        (store : Store),
      (processUnvote envV envD blogId ipHash store).writes ≤
        MAX_RETRIES * (2 * (MAX_RETRIES + 1)) ∧
      ∃ k, k ≤ MAX_RETRIES - 1 ∧
        (processUnvote envV envD blogId ipHash store).delays =
          (List.range k).map (fun n => 1000 * (n + 1))) := by
  refine ⟨fun α env c content sha rc => updateGitHubFile_writes_le env c content sha rc,
    fun envV envD blogId ipHash now store =>
      ⟨processVoteLoop_writes_le envV envD blogId ipHash now MAX_RETRIES store 0,
       processVote_delays_shape envV envD blogId ipHash now store⟩,
    fun envV envD blogId ipHash store =>
      ⟨processUnvoteLoop_writes_le envV envD blogId ipHash MAX_RETRIES store 0,
       processUnvote_delays_shape envV envD blogId ipHash store⟩⟩

/-- C8: the aggregate mutation shared by castVote and retractVote rewrites
only the first entry whose id matches the target — per position the id and
all opaque fields are preserved, entries with a different id are passed
through unchanged, and at most one entry of the written list differs from the
read list. -/
theorem aggregate_write_frame (entries : List Entry) (blogId : String)
    (f : Option Int → Int) :
    List.Forall₂
      (fun e e' => e'.id = e.id ∧ e'.extra = e.extra ∧ (e.id = blogId ∨ e' = e))
      entries (updateFirstVotes entries blogId f) ∧
    ((entries.zip (updateFirstVotes entries blogId f)).countP
      (fun p => decide (p.2 ≠ p.1))) ≤ 1 :=
  ⟨updateFirstVotes_forall₂ entries blogId f, updateFirstVotes_countP entries blogId f⟩

end BlogVote
namespace BlogVote

/-- C5: the rate limiter is a fixed-window counter with window
RATE_LIMIT_WINDOW (1 hour) and capacity MAX_VOTES_PER_WINDOW (10): an expired
window is reset to a fresh count before counting; a full window rejects
without mutating the map; otherwise the count is incremented with the window
start preserved; a fresh identity starts at count 1.  Consequently calls 1-10
within one window are allowed, the 11th is rejected, and a call after the
window elapses is allowed again with the counter reset. -/
theorem rateLimiter_fixed_window :
    (∀ (m : RLState) (ip : String) (now : Nat),
      (checkRateLimit m ip now).1 = false → (checkRateLimit m ip now).2 = m) ∧
    (∀ (m : RLState) (ip : String) (now : Nat) (e : RateEntry),
      getA m ip = some e → now - e.windowStart > RATE_LIMIT_WINDOW →
      checkRateLimit m ip now = (true, setA m ip ⟨1, now⟩)) ∧
    (∀ (m : RLState) (ip : String) (now : Nat) (e : RateEntry),
      getA m ip = some e → ¬ now - e.windowStart > RATE_LIMIT_WINDOW →
      e.count ≥ MAX_VOTES_PER_WINDOW → checkRateLimit m ip now = (false, m)) ∧
    (∀ (m : RLState) (ip : String) (now : Nat) (e : RateEntry),
      getA m ip = some e → ¬ now - e.windowStart > RATE_LIMIT_WINDOW →
      e.count < MAX_VOTES_PER_WINDOW →
      checkRateLimit m ip now = (true, setA m ip ⟨e.count + 1, e.windowStart⟩)) ∧
    (∀ (m : RLState) (ip : String) (now : Nat),
      getA m ip = none → checkRateLimit m ip now = (true, setA m ip ⟨1, now⟩)) ∧
    (∀ (ip : String) (t : Nat),
      (∀ k, k < MAX_VOTES_PER_WINDOW →
        (checkRateLimit (rlIter ip t k []) ip t).1 = true) ∧
      checkRateLimit (rlIter ip t MAX_VOTES_PER_WINDOW []) ip t =
        (false, rlIter ip t MAX_VOTES_PER_WINDOW []) ∧
      checkRateLimit (rlIter ip t MAX_VOTES_PER_WINDOW []) ip
          (t + RATE_LIMIT_WINDOW + 1) =
        (true, [(ip, ⟨1, t + RATE_LIMIT_WINDOW + 1⟩)])) := by
  refine ⟨checkRateLimit_false_no_mutation,
    fun m ip now e hget hw => checkRateLimit_reset hget hw,
    fun m ip now e hget hw hc => checkRateLimit_full hget hw hc,
    fun m ip now e hget hw hc => checkRateLimit_incr hget hw hc,
    fun m ip now hget => checkRateLimit_fresh hget,
    fun ip t => ⟨?_, ?_, ?_⟩⟩
  · intro k hk
    rcases Nat.eq_zero_or_pos k with h0 | hpos
    · subst h0
      rw [show rlIter ip t 0 [] = [] from rfl, checkRateLimit_fresh (by simp [getA])]
    · rw [rlIter_empty ip t k (by omega) hpos]
      have hget : getA [(ip, (⟨k, t⟩ : RateEntry))] ip = some ⟨k, t⟩ := by simp [getA]
      have hw : ¬ t - (⟨k, t⟩ : RateEntry).windowStart > RATE_LIMIT_WINDOW := by
        show ¬ t - t > RATE_LIMIT_WINDOW
        omega
      have hc : (⟨k, t⟩ : RateEntry).count < MAX_VOTES_PER_WINDOW := hk
      rw [checkRateLimit_incr hget hw hc]
  · rw [rlIter_empty ip t MAX_VOTES_PER_WINDOW (le_refl _) (by simp [MAX_VOTES_PER_WINDOW])]
    have hget : getA [(ip, (⟨MAX_VOTES_PER_WINDOW, t⟩ : RateEntry))] ip =
        some ⟨MAX_VOTES_PER_WINDOW, t⟩ := by simp [getA]
    have hw : ¬ t - (⟨MAX_VOTES_PER_WINDOW, t⟩ : RateEntry).windowStart >
        RATE_LIMIT_WINDOW := by
      show ¬ t - t > RATE_LIMIT_WINDOW
      omega
    exact checkRateLimit_full hget hw (le_refl _)
  · rw [rlIter_empty ip t MAX_VOTES_PER_WINDOW (le_refl _) (by simp [MAX_VOTES_PER_WINDOW])]
    have hget : getA [(ip, (⟨MAX_VOTES_PER_WINDOW, t⟩ : RateEntry))] ip =
        some ⟨MAX_VOTES_PER_WINDOW, t⟩ := by simp [getA]
    have hw : t + RATE_LIMIT_WINDOW + 1 - (⟨MAX_VOTES_PER_WINDOW, t⟩ : RateEntry).windowStart >
        RATE_LIMIT_WINDOW := by
      show t + RATE_LIMIT_WINDOW + 1 - t > RATE_LIMIT_WINDOW
      omega
    rw [checkRateLimit_reset hget hw]
    simp [setA]

/-- Witness for the rate limiter theorem: a full window rejects without
mutation, and the call after the window elapses is allowed with the counter
reset to 1. -/
theorem rateLimiter_fixed_window_witness :
    checkRateLimit [("h1", ⟨10, 0⟩)] "h1" 5 = (false, [("h1", ⟨10, 0⟩)]) ∧
    checkRateLimit (rlIter "h1" 0 MAX_VOTES_PER_WINDOW []) "h1" 0 =
      (false, rlIter "h1" 0 MAX_VOTES_PER_WINDOW []) ∧
    checkRateLimit (rlIter "h1" 0 MAX_VOTES_PER_WINDOW []) "h1"
        (0 + RATE_LIMIT_WINDOW + 1) =
      (true, [("h1", ⟨1, 0 + RATE_LIMIT_WINDOW + 1⟩)]) :=
  ⟨rateLimiter_fixed_window.2.2.1 [("h1", ⟨10, 0⟩)] "h1" 5 ⟨10, 0⟩
      (by decide) (by decide) (by decide),
   (rateLimiter_fixed_window.2.2.2.2.2 "h1" 0).2.1,
   (rateLimiter_fixed_window.2.2.2.2.2 "h1" 0).2.2⟩

/-- C9: listVotes tolerates a missing Ledger as empty, performs no writes, and
returns for every Aggregate entry exactly its id, its voteCount (0 when the
field is absent) and whether the identity appears under that item in the
Ledger (for any ledger whose castAt timestamps are positive, as
Date.now() epoch-millisecond values are). -/
theorem listVotes_spec (bd : BlogData) (vd : VotesData) (ipHash : String)
    (hpos : TsPos vd) :
    listVotes (some bd) none ipHash = listVotes (some bd) (some ⟨[]⟩) ipHash ∧
    listVotes (some bd) (some vd) ipHash =
      some (bd.entries.map fun e =>
        ⟨e.id, e.votes.getD 0, (getVote vd e.id ipHash).isSome⟩) ∧
    (∀ store : Store, (votesHandler store ipHash).2 = store) := by
  refine ⟨rfl, ?_, fun store => rfl⟩
  simp only [listVotes, Option.map_some', Option.getD_some]
  refine congrArg some (List.map_congr_left ?_)
  intro e _
  have := truthyTs_getVote_isSome hpos e.id ipHash
  simp [this]

/-- Witness for the listVotes theorem on a concrete store with two items, one
voted by h1. -/
theorem listVotes_spec_witness :
    listVotes (some ⟨[⟨"a1", some 3, []⟩, ⟨"a2", none, []⟩]⟩) none "h1" =
      listVotes (some ⟨[⟨"a1", some 3, []⟩, ⟨"a2", none, []⟩]⟩) (some ⟨[]⟩) "h1" ∧
    listVotes (some ⟨[⟨"a1", some 3, []⟩, ⟨"a2", none, []⟩]⟩)
        (some ⟨[("a1", [("h1", 5)])]⟩) "h1" =
      some ((⟨[⟨"a1", some 3, []⟩, ⟨"a2", none, []⟩]⟩ : BlogData).entries.map fun e =>
        ⟨e.id, e.votes.getD 0,
          (getVote ⟨[("a1", [("h1", 5)])]⟩ e.id "h1").isSome⟩) ∧
    (∀ store : Store, (votesHandler store "h1").2 = store) :=
  listVotes_spec ⟨[⟨"a1", some 3, []⟩, ⟨"a2", none, []⟩]⟩
    ⟨[("a1", [("h1", 5)])]⟩ "h1" (by decide)


/-- C10: a vote request that passes the rate limiter leaves the rate-limit map
exactly as checkRateLimit's mutation made it — the identity's windowed count
incremented by one — and that final map does not depend on the document
store at all, so no vote outcome (AlreadyVoted, NotFound, conflict or store
error) ever refunds the consumed rate-limit unit. -/
theorem rateLimit_consumed_before_store
    (m : RLState) (store store' : Store) (blogId ipHash : String) (now : Nat)
    (hb : blogId ≠ "")
    (hallow : (checkRateLimit m ipHash now).1 = true) :
    (voteHandler m store blogId ipHash now).2.1 = (checkRateLimit m ipHash now).2 ∧
    (voteHandler m store blogId ipHash now).2.1 =
      (voteHandler m store' blogId ipHash now).2.1 ∧
    ∃ ws, getA (voteHandler m store blogId ipHash now).2.1 ipHash =
        some ⟨effCount m ipHash now + 1, ws⟩ := by
  have hrl : ∀ s : Store,
      (voteHandler m s blogId ipHash now).2.1 = (checkRateLimit m ipHash now).2 := by
    intro s
    simp only [voteHandler, hb, if_false]
    split <;> rfl
  refine ⟨hrl store, (hrl store).trans (hrl store').symm, ?_⟩
  rw [hrl store]
  by_cases hw : now - ((getA m ipHash).getD ⟨0, now⟩).windowStart > RATE_LIMIT_WINDOW
  · cases hg : getA m ipHash with
    | none =>
      rw [hg] at hw
      simp only [Option.getD_none] at hw
      omega
    | some e2 =>
      rw [hg] at hw
      simp only [Option.getD_some] at hw
      rw [checkRateLimit_reset hg hw]
      refine ⟨now, ?_⟩
      rw [getA_setA_same]
      have : effCount m ipHash now = 0 := by
        simp [effCount, hg, hw]
      rw [this]
  · cases hg : getA m ipHash with
    | none =>
      rw [checkRateLimit_fresh hg]
      refine ⟨now, ?_⟩
      rw [getA_setA_same]
      have : effCount m ipHash now = 0 := by
        simp only [effCount, hg, Option.getD_none]
        rw [if_neg (by omega)]
      rw [this]
    | some e2 =>
      rw [hg] at hw
      simp only [Option.getD_some] at hw
      by_cases hc : e2.count ≥ MAX_VOTES_PER_WINDOW
      · rw [checkRateLimit_full hg hw hc] at hallow
        simp at hallow
      · rw [checkRateLimit_incr hg hw (by omega)]
        refine ⟨e2.windowStart, ?_⟩
        rw [getA_setA_same]
        have : effCount m ipHash now = e2.count := by
          simp [effCount, hg, hw]
        rw [this]

/-- Witness for the rate-limit consumption theorem: a fresh identity on an
empty map, against two different stores. -/
theorem rateLimit_consumed_before_store_witness :
    (voteHandler [] raceStore "a1" "h1" 5).2.1 = (checkRateLimit [] "h1" 5).2 ∧
    (voteHandler [] raceStore "a1" "h1" 5).2.1 =
      (voteHandler [] conflictStore "a1" "h1" 5).2.1 ∧
    ∃ ws, getA (voteHandler [] raceStore "a1" "h1" 5).2.1 "h1" =
        some ⟨effCount [] "h1" 5 + 1, ws⟩ :=
  rateLimit_consumed_before_store [] raceStore conflictStore "a1" "h1" 5
    (by decide) (by decide)

end BlogVote
